import Mathlib

/-!
Verification of the challenge-response wallet authentication core of the
CSEC08 research platform.

The development shallowly embeds:
* the browser-extension wallet (`src/extention/popup/popup.js`):
  key generation, address derivation via SHA-256, wallet import, and the
  EIP-191 style message prefixing used when signing;
* the nonce table and its cleanup function (`src/database/schema.sql`);
* the client authentication flow (`useWeb3Auth.authenticate`);
* the parts of the server core that are documented but whose source is not
  part of the repository snapshot (NonceStore issue and consume,
  MessageBuilder render, SignatureVerifier); those are modelled from the
  specification and are marked as such in their doc comments.

Machine strings are Lean `String`, byte sequences are `List Nat` with each
entry a byte value below 256, and timestamps are natural numbers counting
seconds.
-/

namespace Research

/-- Concatenation of a list of lists, used to model JavaScript
`array.map(f).join(...)` patterns. -/
def concatAll {α : Type} : List (List α) → List α
  | [] => []
  | x :: xs => x ++ concatAll xs

/-- The whitespace characters removed by JavaScript `String.prototype.trim`
(restricted to the ASCII whitespace actually relevant here). -/
def jsWhitespace (c : Char) : Bool :=
  c = ' ' || c = '\t' || c = '\n' || c = '\r'

/-- Model of JavaScript `s.trim()`: drop whitespace from both ends. -/
def jsTrim (s : String) : String :=
  ⟨((s.data.dropWhile jsWhitespace).reverse.dropWhile jsWhitespace).reverse⟩

/-- Model of JavaScript `s.startsWith(p)`. -/
def jsStartsWith (s p : String) : Bool :=
  decide (s.data.take p.data.length = p.data)

/-- Model of JavaScript `s.length` (all strings involved are ASCII, where
UTF-16 code-unit count and character count agree). -/
def jsLength (s : String) : Nat := s.data.length

/-- Lower-case hexadecimal digit for a value below 16, as produced by
JavaScript `Number.prototype.toString(16)`. -/
def hexChar (n : Nat) : Char :=
  if n < 10 then Char.ofNat (48 + n) else Char.ofNat (87 + n)

/-- Model of `b.toString(16).padStart(2, '0')` for a byte `b < 256`:
exactly two lower-case hex digits. -/
def byteHex (b : Nat) : List Char :=
  [hexChar (b / 16 % 16), hexChar (b % 16)]

/-- Model of `Array.from(bytes).map(b => b.toString(16).padStart(2, '0')).join('')`. -/
def hexOfBytes (bs : List Nat) : String :=
  ⟨concatAll (bs.map byteHex)⟩

/-- UTF-8 encoding of a single character (codepoint-based), as produced by
`new TextEncoder().encode` on well-formed strings. -/
def utf8Char (c : Char) : List Nat :=
  let n := c.toNat
  if n < 128 then [n]
  else if n < 2048 then [192 + n / 64, 128 + n % 64]
  else if n < 65536 then [224 + n / 4096, 128 + n / 64 % 64, 128 + n % 64]
  else [240 + n / 262144, 128 + n / 4096 % 64, 128 + n / 64 % 64, 128 + n % 64]

/-- Model of `new TextEncoder().encode(s)`. -/
def utf8Bytes (s : String) : List Nat :=
  concatAll (s.data.map utf8Char)

/-! ### SHA-256

Executable embedding of the SHA-256 digest used by
`crypto.subtle.digest('SHA-256', ...)` in `popup.js`.  Words are naturals
reduced modulo `2 ^ 32`. -/

/-- Reduction modulo the 32-bit word size. -/
def w32 (n : Nat) : Nat := n % 4294967296

/-- Right rotation of a 32-bit word. -/
def rotr32 (n x : Nat) : Nat := x / 2 ^ n + x % 2 ^ n * 2 ^ (32 - n)

/-- Logical right shift of a 32-bit word. -/
def shr32 (n x : Nat) : Nat := x / 2 ^ n

/-- Bitwise complement within 32 bits. -/
def bnot32 (x : Nat) : Nat := Nat.xor x 4294967295

/-- SHA-256 big sigma 0. -/
def bigSigma0 (x : Nat) : Nat :=
  Nat.xor (Nat.xor (rotr32 2 x) (rotr32 13 x)) (rotr32 22 x)

/-- SHA-256 big sigma 1. -/
def bigSigma1 (x : Nat) : Nat :=
  Nat.xor (Nat.xor (rotr32 6 x) (rotr32 11 x)) (rotr32 25 x)

/-- SHA-256 small sigma 0. -/
def smallSigma0 (x : Nat) : Nat :=
  Nat.xor (Nat.xor (rotr32 7 x) (rotr32 18 x)) (shr32 3 x)

/-- SHA-256 small sigma 1. -/
def smallSigma1 (x : Nat) : Nat :=
  Nat.xor (Nat.xor (rotr32 17 x) (rotr32 19 x)) (shr32 10 x)

/-- SHA-256 choice function. -/
def chFn (x y z : Nat) : Nat :=
  Nat.xor (Nat.land x y) (Nat.land (bnot32 x) z)

/-- SHA-256 majority function. -/
def majFn (x y z : Nat) : Nat :=
  Nat.xor (Nat.xor (Nat.land x y) (Nat.land x z)) (Nat.land y z)

/-- The eight working variables of the SHA-256 compression function. -/
structure Hash8 where
  a : Nat
  b : Nat
  c : Nat
  d : Nat
  e : Nat
  f : Nat
  g : Nat
  hh : Nat
deriving Repr, DecidableEq

/-- SHA-256 initial hash value (FIPS 180-4, written in decimal). -/
def initHash : Hash8 :=
  { a := 1779033703, b := 3144134277, c := 1013904242, d := 2773480762,
    e := 1359893119, f := 2600822924, g := 528734635, hh := 1541459225 }

/-- The 64 SHA-256 round constants (FIPS 180-4, written in decimal). -/
def sha256K : List Nat :=
  [1116352408, 1899447441, 3049323471, 3921009573,
   961987163, 1508970993, 2453635748, 2870763221,
   3624381080, 310598401, 607225278, 1426881987,
   1925078388, 2162078206, 2614888103, 3248222580,
   3835390401, 4022224774, 264347078, 604807628,
   770255983, 1249150122, 1555081692, 1996064986,
   2554220882, 2821834349, 2952996808, 3210313671,
   3336571891, 3584528711, 113926993, 338241895,
   666307205, 773529912, 1294757372, 1396182291,
   1695183700, 1986661051, 2177026350, 2456956037,
   2730485921, 2820302411, 3259730800, 3345764771,
   3516065817, 3600352804, 4094571909, 275423344,
   430227734, 506948616, 659060556, 883997877,
   958139571, 1322822218, 1537002063, 1747873779,
   1955562222, 2024104815, 2227730452, 2361852424,
   2428436474, 2756734187, 3204031479, 3329325298]

/-- Big-endian encoding of a length (in bits) on 8 bytes. -/
def beBytes8 (n : Nat) : List Nat :=
  [n / 2 ^ 56 % 256, n / 2 ^ 48 % 256, n / 2 ^ 40 % 256, n / 2 ^ 32 % 256,
   n / 2 ^ 24 % 256, n / 2 ^ 16 % 256, n / 2 ^ 8 % 256, n % 256]

/-- SHA-256 padding: append `0x80`, zero bytes up to 56 mod 64, then the
message bit length on 8 bytes. -/
def padMessage (msg : List Nat) : List Nat :=
  msg ++ 128 :: (List.replicate ((119 - msg.length % 64) % 64) 0 ++ beBytes8 (8 * msg.length))

/-- Split a byte list into `n` chunks of 64 bytes. -/
def toBlocksN : Nat → List Nat → List (List Nat)
  | 0, _ => []
  | n + 1, l => l.take 64 :: toBlocksN n (l.drop 64)

/-- Parse big-endian 32-bit words out of a byte list. -/
def toWords : List Nat → List Nat
  | b0 :: b1 :: b2 :: b3 :: rest =>
      (((b0 * 256 + b1) * 256 + b2) * 256 + b3) :: toWords rest
  | _ => []

/-- Next word of the SHA-256 message schedule, computed from the words
produced so far. -/
def nextW (w : List Nat) : Nat :=
  let i := w.length
  w32 (w.getD (i - 16) 0 + smallSigma0 (w.getD (i - 15) 0) +
       w.getD (i - 7) 0 + smallSigma1 (w.getD (i - 2) 0))

/-- Extend the message schedule by `n` further words. -/
def extendSchedule : Nat → List Nat → List Nat
  | 0, w => w
  | n + 1, w => extendSchedule n (w ++ [nextW w])

/-- The 64-word message schedule of one block. -/
def msgSchedule (block : List Nat) : List Nat :=
  extendSchedule 48 (toWords block)

/-- One round of the SHA-256 compression function. -/
def roundStep (st : Hash8) (kw : Nat × Nat) : Hash8 :=
  let t1 := w32 (st.hh + bigSigma1 st.e + chFn st.e st.f st.g + kw.1 + kw.2)
  let t2 := w32 (bigSigma0 st.a + majFn st.a st.b st.c)
  ⟨w32 (t1 + t2), st.a, st.b, st.c, w32 (st.d + t1), st.e, st.f, st.g⟩

/-- Compression of one 64-byte block into the running hash state. -/
def compressBlock (hs : Hash8) (block : List Nat) : Hash8 :=
  let st := (sha256K.zip (msgSchedule block)).foldl roundStep hs
  ⟨w32 (hs.a + st.a), w32 (hs.b + st.b), w32 (hs.c + st.c), w32 (hs.d + st.d),
   w32 (hs.e + st.e), w32 (hs.f + st.f), w32 (hs.g + st.g), w32 (hs.hh + st.hh)⟩

/-- Big-endian bytes of a 32-bit word. -/
def wordBE (x : Nat) : List Nat :=
  [x / 2 ^ 24 % 256, x / 2 ^ 16 % 256, x / 2 ^ 8 % 256, x % 256]

/-- The 32 digest bytes of a final hash state. -/
def digestBytes (hs : Hash8) : List Nat :=
  wordBE hs.a ++ wordBE hs.b ++ wordBE hs.c ++ wordBE hs.d ++
  wordBE hs.e ++ wordBE hs.f ++ wordBE hs.g ++ wordBE hs.hh

/-- SHA-256 digest of a byte list. -/
def sha256 (msg : List Nat) : List Nat :=
  digestBytes
    ((toBlocksN ((padMessage msg).length / 64) (padMessage msg)).foldl compressBlock initHash)

/-! ### The browser-extension wallet (`src/extention/popup/popup.js`) -/

/-- Address derivation as written in `generateWallet`
(`popup.js` lines 117-120): the lower-case hex encoding of bytes 12..31 of
the SHA-256 digest of the private-key string, with a `0x` prefixed. -/
def deriveAddressCreate (privateKey : String) : String :=
  "0x" ++ hexOfBytes (((sha256 (utf8Bytes privateKey)).drop 12).take 20)

/-- Address derivation as written in `importWallet`
(`popup.js` lines 153-156). -/
def deriveAddressImport (key : String) : String :=
  "0x" ++ hexOfBytes (((sha256 (utf8Bytes key)).drop 12).take 20)

/-- A stored wallet: the private key string and the derived address. -/
structure Wallet where
  privateKey : String
  address : String
deriving Repr, DecidableEq

/-- `generateWallet` (`popup.js` lines 109-128) applied to the 32 random
bytes drawn by `crypto.getRandomValues`: the private key is `0x` plus the
hex encoding of the bytes, the address is derived from the key string. -/
def generateWallet (arr : List Nat) : Wallet :=
  let privateKey := "0x" ++ hexOfBytes arr
  { privateKey := privateKey, address := deriveAddressCreate privateKey }

/-- `importWallet` (`popup.js` lines 140-167) as a function of the entered
text and the previously stored wallet.  The entered text is trimmed; the
trimmed key is rejected when it is empty, does not start with `0x`, or does
not have length 66, leaving the stored wallet unchanged; otherwise the
wallet derived from the trimmed key is persisted.  The returned boolean
records whether a wallet was persisted. -/
def importWallet (input : String) (stored : Option Wallet) : Option Wallet × Bool :=
  let key := jsTrim input
  if key = "" ∨ ¬ jsStartsWith key "0x" ∨ jsLength key ≠ 66 then
    (stored, false)
  else
    (some { privateKey := key, address := deriveAddressImport key }, true)

/-- The EIP-191 personal-message header built in `approveSignature`
(`popup.js` line 219): the byte `0x19`, the fixed text, and the decimal
length of the message, followed by the message itself. -/
def eip191Header (msg : String) : String :=
  "\x19Ethereum Signed Message:\n" ++ toString (jsLength msg) ++ msg

/-- `approveSignature` (`popup.js` lines 213-240): the extension signs by
hashing, not by any recoverable signature scheme.  The emitted signature
string is `0x` plus the hex encoding of the SHA-256 digest of the
EIP-191-prefixed message concatenated with the private-key string. -/
def approveSignature (w : Wallet) (msg : String) : String :=
  "0x" ++ hexOfBytes (sha256 (utf8Bytes (eip191Header msg ++ w.privateKey)))

/-! ### NonceStore (`auth_nonces` in `src/database/schema.sql`)

The table row and the cleanup function are embedded from `schema.sql`;
`issue` and `consume` are server code absent from the snapshot and are
modelled from the specification. -/

/-- A row of `auth_nonces` (`schema.sql` lines 34-43): the claimed identity
(wallet address), the nonce value, creation and expiry timestamps, and the
single-use flag. -/
structure NonceRow where
  identity : String
  value : String
  createdAt : Nat
  expiresAt : Nat
  used : Bool
deriving Repr, DecidableEq

/-- The nonce table. -/
abbrev Store := List NonceRow

/-- Whether a row belongs to the given (identity, value) pair. -/
def rowMatches (identity value : String) (r : NonceRow) : Bool :=
  r.identity == identity && r.value == value

/-- Whether a row is consumable now: unused and unexpired. -/
def rowActive (now : Nat) (r : NonceRow) : Bool :=
  !r.used && decide (now ≤ r.expiresAt)

/-- The schema's UNIQUE (wallet_address, nonce) constraint: at most one row
per (identity, value) pair. -/
def uniqueKeys (s : Store) : Prop :=
  ∀ identity value, s.countP (rowMatches identity value) ≤ 1

/-- The validity window of a nonce, five minutes in seconds. -/
def nonceWindow : Nat := 5 * 60

/-- Modelled from the spec: `NonceStore.issue` (server code absent from the
snapshot) persists a new row with `used = false` and
`expires_at = now + 5min`; the random value is passed in explicitly. -/
def issueRow (now : Nat) (identity value : String) : NonceRow :=
  { identity := identity, value := value, createdAt := now,
    expiresAt := now + nonceWindow, used := false }

/-- Modelled from the spec: `NonceStore.issue` inserts the new row without
touching existing rows. -/
def issue (now : Nat) (identity value : String) (s : Store) : Store :=
  issueRow now identity value :: s

/-- The failure reasons of `consume`. -/
inductive ConsumeError where
  | notFound
  | expired
  | alreadyUsed
deriving Repr, DecidableEq

/-- The condition of the single conditional update: the row belongs to the
(identity, value) pair, is unused, and is unexpired. -/
def consumePred (now : Nat) (identity value : String) (r : NonceRow) : Bool :=
  rowMatches identity value r && rowActive now r

/-- The effect of the conditional update: flip `used` on every row meeting
the update condition. -/
def markUsed (now : Nat) (identity value : String) (s : Store) : Store :=
  s.map (fun q => if consumePred now identity value q then { q with used := true } else q)

/-- Modelled from the spec: `NonceStore.consume` (server code absent from
the snapshot) atomically looks up an unused, unexpired row matching
(identity, value); if found it flips `used := true` via a single
conditional update and returns the row; otherwise it fails with a specific
reason and leaves the store unchanged. -/
def consume (now : Nat) (identity value : String) (s : Store) :
    Except ConsumeError NonceRow × Store :=
  match s.find? (consumePred now identity value) with
  | some r => (Except.ok { r with used := true }, markUsed now identity value s)
  | none =>
      if s.all (fun r => !rowMatches identity value r) then
        (Except.error ConsumeError.notFound, s)
      else if s.any (fun r => rowMatches identity value r && r.used) then
        (Except.error ConsumeError.alreadyUsed, s)
      else
        (Except.error ConsumeError.expired, s)

/-- Whether a consume outcome is a success. -/
def exceptOk : Except ConsumeError NonceRow → Bool
  | Except.ok _ => true
  | Except.error _ => false

/-- The deletion condition of `cleanup_expired_nonces`
(`schema.sql` lines 158-168): `expires_at < CURRENT_TIMESTAMP OR used = TRUE`. -/
def sweepCond (now : Nat) (r : NonceRow) : Bool :=
  decide (r.expiresAt < now) || r.used

/-- `cleanup_expired_nonces` (`schema.sql` lines 158-168): delete every row
satisfying `sweepCond` and return the number of deleted rows together with
the remaining table. -/
def sweepExpired (now : Nat) (s : Store) : Nat × Store :=
  let remaining := s.filter (fun r => !sweepCond now r)
  (s.length - remaining.length, remaining)

/-! ### MessageBuilder -/

/-- Modelled from the spec: `MessageBuilder.render` (server code absent
from the snapshot) is a pure function of the nonce value, a fixed
explanatory sentence carrying the sign-in purpose and the issuing domain
with the nonce value embedded at the end. -/
def render (n : NonceRow) : String :=
  "Sign this message to authenticate with the CSEC08 research platform. Nonce: " ++ n.value

/-! ### SignatureVerifier

The server verification code is absent from the snapshot; the signing
scheme library (ECDSA recovery per the documentation) is environment code
in the spec.  Both are modelled from the specification: a signature is an
opaque object from which a deterministic recovery function reconstructs the
identity that produced it over the canonically prefixed message. -/

/-- Modelled from the spec: a well-formed signature records the full
prefixed text it was produced over and the identity of its signer;
malformed signatures are marked as such. -/
structure SchemeSig where
  wellFormed : Bool
  signedFull : String
  signer : String
deriving Repr, DecidableEq

/-- Whether a character is a hexadecimal digit. -/
def isHexDigit (c : Char) : Bool :=
  (decide ('0' ≤ c) && decide (c ≤ '9')) ||
  (decide ('a' ≤ c) && decide (c ≤ 'f')) ||
  (decide ('A' ≤ c) && decide (c ≤ 'F'))

/-- Modelled from the spec: the shape of a validly-formed signature string
of the scheme named by the repository documentation (EIP-191 personal-sign
ECDSA, a 65-byte (r, s, v) tuple transported as hex): the `0x` prefix,
132 characters in all, hexadecimal throughout.  Spec 4.3 makes recovery
fail with `MalformedSignature` on a wrong length or unparseable hex. -/
def schemeSigWellFormed (s : String) : Bool :=
  jsStartsWith s "0x" && decide (jsLength s = 132) && (s.data.drop 2).all isHexDigit

/-- Case normalization of identities before comparison, as the spec
requires for the scheme's case-insensitive addresses. -/
def normalizeId (s : String) : String :=
  ⟨s.data.map Char.toLower⟩

/-- Modelled from the spec: `recoverIdentity` fails only on a malformed
signature; on a well-formed signature it deterministically reconstructs the
signer when the signature covers the canonical prefixing of the given
message, and otherwise yields some other deterministically derived
address. -/
def recoverIdentity (msg : String) (sig : SchemeSig) : Option String :=
  if ¬ sig.wellFormed then none
  else if sig.signedFull = eip191Header msg then some sig.signer
  else some ("0x" ++ hexOfBytes (((sha256 (utf8Bytes (sig.signedFull ++ eip191Header msg))).drop 12).take 20))

/-- Modelled from the spec: `verify` returns true iff the recovered
identity equals the claimed identity after case normalization; recovery
failure is a normal false at this boolean interface. -/
def verify (claimedIdentity msg : String) (sig : SchemeSig) : Bool :=
  match recoverIdentity msg sig with
  | some a => normalizeId a == normalizeId claimedIdentity
  | none => false

/-! ### The client authentication flow (`useWeb3Auth.authenticate`,
lines 113-235 of the client hook) -/

/-- A JavaScript error value as examined by the catch block of
`authenticate`: the numeric `code` (4001 on user rejection), the string
`code` (`NETWORK_ERROR`), the message text, and the HTTP status of an
attached response. -/
structure JsError where
  codeNum : Option Nat
  codeStr : Option String
  message : String
  responseStatus : Option Nat
deriving Repr, DecidableEq

/-- Whether a character list contains another as an infix, modelling
JavaScript `String.prototype.includes`. -/
def hasInfixChars (needle : List Char) : List Char → Bool
  | [] => needle.isEmpty
  | c :: rest => decide ((c :: rest).take needle.length = needle) || hasInfixChars needle rest

/-- Model of JavaScript `s.includes(sub)`. -/
def jsIncludes (s sub : String) : Bool :=
  hasInfixChars sub.data s.data

/-- The response of the HTTP verify call: the success flag and the issued
token. -/
structure VerifyResponse where
  success : Bool
  token : String
deriving Repr, DecidableEq

/-- The environment of one `authenticate` run: whether a wallet is
connected, the outcome of the nonce request, and the outcomes of the
signing step and of the verify call, each either a value or a thrown
error. -/
structure AuthEnv where
  connected : Bool
  nonceSuccess : Bool
  signOutcome : Except JsError String
  verifyOutcome : Except JsError VerifyResponse
deriving Repr

/-- The value returned by `authenticate`: the success flag and, when
present, the error code, its category, and the session token. -/
structure AuthResult where
  success : Bool
  error : Option String
  category : Option String
  token : Option String
deriving Repr, DecidableEq

/-- The error classification in the catch block of `authenticate`
(lines 200-217 of the hook): user rejection, failed verification (HTTP
401), network timeout, or the generic failure, each with its research
category. -/
def classifyError (e : JsError) : String × String :=
  if e.codeNum = some 4001 ∨ jsIncludes e.message "user rejected" then
    ("USER_REJECTED_SIGNATURE", "USABILITY")
  else if e.responseStatus = some 401 then
    ("SIGNATURE_VERIFICATION_FAILED", "SYSTEM")
  else if e.codeStr = some "NETWORK_ERROR" then
    ("NETWORK_TIMEOUT", "SYSTEM")
  else
    ("ERR_AUTH_FAILED", "SYSTEM")

/-- A thrown `new Error(msg)`: only the message is set. -/
def plainError (msg : String) : JsError :=
  { codeNum := none, codeStr := none, message := msg, responseStatus := none }

/-- The body of the try block of `authenticate`: request the nonce, sign,
submit for verification; any step may throw. -/
def authTry (env : AuthEnv) : Except JsError String := do
  if ¬ env.nonceSuccess then
    throw (plainError "Failed to generate nonce")
  let _sig ← env.signOutcome
  let resp ← env.verifyOutcome
  if resp.success then
    pure resp.token
  else
    throw (plainError "Signature verification failed")

/-- `authenticate` (lines 113-235 of the hook): without a connected wallet
it returns a bare failure result; otherwise it runs the try block and the
catch-all turns every thrown error into a failure result carrying the
classified error code and category. -/
def authenticate (env : AuthEnv) : AuthResult :=
  if ¬ env.connected then
    { success := false, error := none, category := none, token := none }
  else
    match authTry env with
    | Except.ok token =>
        { success := true, error := none, category := none, token := some token }
    | Except.error e =>
        let c := classifyError e
        { success := false, error := some c.1, category := some c.2, token := none }

/-- An environment in which every later step would succeed but no wallet
is connected. -/
def envNotConnected : AuthEnv :=
  { connected := false, nonceSuccess := true,
    signOutcome := Except.ok "0xsig",
    verifyOutcome := Except.ok { success := true, token := "tok" } }

/-- An environment with a connected wallet whose signing step throws the
user-rejection error (code 4001). -/
def envUserRejected : AuthEnv :=
  { connected := true, nonceSuccess := true,
    signOutcome := Except.error
      { codeNum := some 4001, codeStr := none,
        message := "user rejected signing", responseStatus := none },
    verifyOutcome := Except.ok { success := true, token := "tok" } }

/-- A well-formed 66-character key with 64 trailing characters that are not
hexadecimal digits. -/
def nonHexKey : String := "0x" ++ ⟨List.replicate 64 'z'⟩

/-- A 66-character key padded with one trailing space, 67 characters as
entered. -/
def paddedKey : String := "0x" ++ ⟨List.replicate 64 'a'⟩ ++ " "

/-! ### Theorems -/

/-- C6: `MessageBuilder.render` is a pure function of the nonce value: two
rows with the same value render to the same string, and two rows rendering
to the same string carry the same value (injectivity in the value). -/
theorem render_deterministic_and_injective :
    (∀ n1 n2 : NonceRow, n1.value = n2.value → render n1 = render n2) ∧
    (∀ n1 n2 : NonceRow, render n1 = render n2 → n1.value = n2.value) := by
  constructor
  · intro n1 n2 h
    unfold render
    rw [h]
  · intro n1 n2 h
    have hd := congrArg String.data h
    simp only [render, String.data_append] at hd
    exact String.ext (List.append_cancel_left hd)

/-- C6 witness at concrete nonce rows. -/
theorem render_deterministic_and_injective_witness :
    render ⟨"0xaa", "n-17", 0, 300, false⟩ = render ⟨"0xbb", "n-17", 7, 299, true⟩ ∧
    (⟨"0xaa", "n-17", 0, 300, false⟩ : NonceRow).value = "n-17" :=
  ⟨render_deterministic_and_injective.1 ⟨"0xaa", "n-17", 0, 300, false⟩
      ⟨"0xbb", "n-17", 7, 299, true⟩ rfl,
   render_deterministic_and_injective.2 ⟨"0xaa", "n-17", 0, 300, false⟩
      ⟨"0xaa", "n-17", 0, 300, false⟩ rfl ▸ rfl⟩

/-- C2: `verify` is true exactly when the recovered identity equals the
claimed identity after case normalization, and a well-formed signature
whose recovered identity differs yields a plain false at the boolean
interface (the function is total, so no error is raised). -/
theorem verify_iff_recovered_matches :
    ∀ (claimedIdentity m : String) (sig : SchemeSig),
      (verify claimedIdentity m sig = true ↔
        ∃ a, recoverIdentity m sig = some a ∧
          normalizeId a = normalizeId claimedIdentity) ∧
      (∀ a, recoverIdentity m sig = some a →
        normalizeId a ≠ normalizeId claimedIdentity →
        verify claimedIdentity m sig = false) := by
  intro claimedIdentity m sig
  constructor
  · cases hrec : recoverIdentity m sig with
    | none => simp [verify, hrec]
    | some a => simp [verify, hrec, beq_iff_eq]
  · intro a ha hne
    simp [verify, ha, beq_eq_false_iff_ne]
    exact hne

/-- C2 witness: a well-formed signature recovering `0xAB` verifies as false
against the distinct claimed identity `0xCD`. -/
theorem verify_iff_recovered_matches_witness :
    verify "0xCD" "login" ⟨true, eip191Header "login", "0xAB"⟩ = false :=
  (verify_iff_recovered_matches "0xCD" "login" ⟨true, eip191Header "login", "0xAB"⟩).2
    "0xAB" (by decide) (by decide)

/-! ### NonceStore lemmas -/

/-- Two distinct members both satisfying a predicate force a count of at
least two. -/
theorem two_le_countP {α : Type} (p : α → Bool) :
    ∀ (l : List α) (a b : α), a ∈ l → b ∈ l → a ≠ b →
      p a = true → p b = true → 2 ≤ l.countP p := by
  intro l
  induction l with
  | nil => intro a _ ha; exact absurd ha (List.not_mem_nil a)
  | cons c t ih =>
    intro a b ha hb hab pa pb
    rcases List.mem_cons.mp ha with rfl | hat
    · rcases List.mem_cons.mp hb with rfl | hbt
      · exact absurd rfl hab
      · have h1 : 0 < t.countP p := List.countP_pos_iff.mpr ⟨b, hbt, pb⟩
        rw [List.countP_cons, if_pos pa]
        omega
    · rcases List.mem_cons.mp hb with rfl | hbt
      · have h1 : 0 < t.countP p := List.countP_pos_iff.mpr ⟨a, hat, pa⟩
        rw [List.countP_cons, if_pos pb]
        omega
      · have h2 := ih a b hat hbt hab pa pb
        rw [List.countP_cons]
        omega

/-- Updating via the conditional update keeps the identity and value of
every row, so `rowMatches` is invariant under it. -/
theorem rowMatches_markUsed_elem (identity value : String) (now : Nat) (q : NonceRow) :
    rowMatches identity value
      (if consumePred now identity value q then { q with used := true } else q) =
    rowMatches identity value q := by
  by_cases hc : consumePred now identity value q = true
  · rw [if_pos hc]
    simp [rowMatches]
  · rw [if_neg hc]

/-- After a successful conditional update under the schema's uniqueness
constraint, every row of the consumed (identity, value) pair is used. -/
theorem markUsed_matching_used {s : Store} {identity value : String} {t1 : Nat}
    {r0 : NonceRow} (hu : uniqueKeys s)
    (hfind : s.find? (consumePred t1 identity value) = some r0) :
    ∀ q ∈ markUsed t1 identity value s, rowMatches identity value q = true → q.used = true := by
  intro q hq hm
  rcases List.mem_map.mp hq with ⟨q0, hq0, rfl⟩
  rw [rowMatches_markUsed_elem] at hm
  by_cases hc : consumePred t1 identity value q0 = true
  · rw [if_pos hc]
  · rw [if_neg hc]
    by_cases hused : q0.used = true
    · exact hused
    · exfalso
      have hq0used : q0.used = false := by
        revert hused; cases q0.used <;> simp
      have hexp : ¬ (t1 ≤ q0.expiresAt) := by
        have hact : rowActive t1 q0 = false := by
          by_contra hne
          have hat : rowActive t1 q0 = true := by
            revert hne; cases rowActive t1 q0 <;> simp
          exact hc (by simp [consumePred, hm, hat])
        simpa [rowActive, hq0used] using hact
      have hr0mem : r0 ∈ s := List.mem_of_find?_eq_some hfind
      have hr0p : consumePred t1 identity value r0 = true := List.find?_some hfind
      rw [consumePred, Bool.and_eq_true] at hr0p
      have hr0exp : t1 ≤ r0.expiresAt := by
        have := hr0p.2
        rw [rowActive, Bool.and_eq_true] at this
        simpa using this.2
      have hne2 : q0 ≠ r0 := by
        intro h
        rw [h] at hexp
        exact hexp hr0exp
      have h2 := two_le_countP (rowMatches identity value) s q0 r0 hq0 hr0mem hne2 hm hr0p.1
      have h3 := hu identity value
      omega

/-- Inversion of a successful consume: the lookup found a row, the result
is that row marked used, and the store is the conditional update of the
input store. -/
theorem consume_ok_find {now : Nat} {identity value : String} {s : Store}
    {r : NonceRow} {s1 : Store}
    (h : consume now identity value s = (Except.ok r, s1)) :
    ∃ r0, s.find? (consumePred now identity value) = some r0 ∧
      r = { r0 with used := true } ∧ s1 = markUsed now identity value s := by
  cases hfind : s.find? (consumePred now identity value) with
  | some r0 =>
    refine ⟨r0, rfl, ?_⟩
    simp only [consume, hfind, Prod.mk.injEq, Except.ok.injEq] at h
    exact ⟨h.1.symm, h.2.symm⟩
  | none =>
    exfalso
    simp only [consume, hfind] at h
    split at h
    · simp at h
    · split at h
      · simp at h
      · simp at h

/-- After a successful consume, a second consume of the same pair at any
time fails with `alreadyUsed` and leaves the store unchanged. -/
theorem consume_markUsed_alreadyUsed {s : Store} {identity value : String} {t1 : Nat}
    {r0 : NonceRow} (hu : uniqueKeys s)
    (hfind : s.find? (consumePred t1 identity value) = some r0) (t2 : Nat) :
    consume t2 identity value (markUsed t1 identity value s) =
      (Except.error ConsumeError.alreadyUsed, markUsed t1 identity value s) := by
  have hr0mem : r0 ∈ s := List.mem_of_find?_eq_some hfind
  have hr0p : consumePred t1 identity value r0 = true := List.find?_some hfind
  have hr0m : rowMatches identity value r0 = true := by
    rw [consumePred, Bool.and_eq_true] at hr0p
    exact hr0p.1
  have himg : ({ r0 with used := true } : NonceRow) ∈ markUsed t1 identity value s := by
    refine List.mem_map.mpr ⟨r0, hr0mem, ?_⟩
    rw [if_pos (List.find?_some hfind)]
  have himgm : rowMatches identity value ({ r0 with used := true } : NonceRow) = true := by
    simpa [rowMatches] using hr0m
  have hnone : (markUsed t1 identity value s).find? (consumePred t2 identity value) = none := by
    rw [List.find?_eq_none]
    intro q hq
    by_cases hm : rowMatches identity value q = true
    · have hused := markUsed_matching_used hu hfind q hq hm
      simp [consumePred, rowActive, hused]
    · have hmf : rowMatches identity value q = false := by
        revert hm; cases rowMatches identity value q <;> simp
      simp [consumePred, hmf]
  have hall : (markUsed t1 identity value s).all (fun r => !rowMatches identity value r) = false := by
    rw [List.all_eq_false]
    exact ⟨_, himg, by simp [himgm]⟩
  have hany : (markUsed t1 identity value s).any
      (fun r => rowMatches identity value r && r.used) = true := by
    rw [List.any_eq_true]
    exact ⟨_, himg, by simp [himgm]⟩
  simp [consume, hnone, hall, hany]

/-! ### C3, C4, C5, C7 -/

/-- C3: the consume operation is single-use.  The spec makes each consume a
single atomic conditional update, so a concurrent race of two consume calls
on the same (identity, value) pair executes as one of the two sequential
orders; the statement quantifies over both timestamps, covering both
orders.  Under the schema's uniqueness constraint, whenever the first call
succeeds the second fails, and when a consumable row exists the race has
exactly one success. -/
theorem consume_single_use :
    ∀ (s : Store) (identity value : String) (t1 t2 : Nat),
      uniqueKeys s →
      (exceptOk (consume t1 identity value s).1 = true →
        exceptOk (consume t2 identity value (consume t1 identity value s).2).1 = false) ∧
      ((∃ r ∈ s, consumePred t1 identity value r = true) →
        exceptOk (consume t1 identity value s).1 = true ∧
        exceptOk (consume t2 identity value (consume t1 identity value s).2).1 = false) := by
  intro s identity value t1 t2 hu
  have key : ∀ r0, s.find? (consumePred t1 identity value) = some r0 →
      exceptOk (consume t1 identity value s).1 = true ∧
      exceptOk (consume t2 identity value (consume t1 identity value s).2).1 = false := by
    intro r0 hfind
    have hsnd : (consume t1 identity value s).2 = markUsed t1 identity value s := by
      simp [consume, hfind]
    constructor
    · simp [consume, hfind, exceptOk]
    · rw [hsnd, consume_markUsed_alreadyUsed hu hfind t2]
      rfl
  constructor
  · intro hok
    cases hfind : s.find? (consumePred t1 identity value) with
    | some r0 => exact (key r0 hfind).2
    | none =>
      exfalso
      have hfalse : exceptOk (consume t1 identity value s).1 = false := by
        simp only [consume, hfind]
        split
        · rfl
        · split
          · rfl
          · rfl
      rw [hok] at hfalse
      exact Bool.noConfusion hfalse
  · intro hex
    have hsome : (s.find? (consumePred t1 identity value)).isSome = true :=
      List.find?_isSome.mpr hex
    cases hfind : s.find? (consumePred t1 identity value) with
    | some r0 => exact key r0 hfind
    | none => rw [hfind] at hsome; simp at hsome

/-- C3 witness: on a singleton store holding a fresh nonce, racing two
consume calls sequentialized in either order has exactly one success. -/
theorem consume_single_use_witness :
    exceptOk (consume 10 "0xaa" "n1" [⟨"0xaa", "n1", 0, 300, false⟩]).1 = true ∧
    exceptOk (consume 20 "0xaa" "n1"
      (consume 10 "0xaa" "n1" [⟨"0xaa", "n1", 0, 300, false⟩]).2).1 = false :=
  (consume_single_use [⟨"0xaa", "n1", 0, 300, false⟩] "0xaa" "n1" 10 20
      (by intro i v; exact List.countP_le_length _)).2
    (by decide)

/-- C4: after a successful consume of a nonce, resubmitting the same
(identity, value) pair fails with the `alreadyUsed` error and leaves the
store unchanged, and every consume moves the used flag of each surviving
row only from false to true, never back. -/
theorem replay_rejected_and_used_monotone :
    (∀ (s s1 : Store) (identity value : String) (t1 t2 : Nat) (r : NonceRow),
      uniqueKeys s →
      consume t1 identity value s = (Except.ok r, s1) →
      consume t2 identity value s1 = (Except.error ConsumeError.alreadyUsed, s1)) ∧
    (∀ (now : Nat) (identity value : String) (s : Store),
      List.Forall₂ (fun a b => a.used = true → b.used = true) s
        (consume now identity value s).2) := by
  constructor
  · intro s s1 identity value t1 t2 r hu hcons
    obtain ⟨r0, hfind, _, hs1⟩ := consume_ok_find hcons
    rw [hs1]
    exact consume_markUsed_alreadyUsed hu hfind t2
  · intro now identity value s
    cases hfind : s.find? (consumePred now identity value) with
    | some r0 =>
      have hsnd : (consume now identity value s).2 = markUsed now identity value s := by
        simp [consume, hfind]
      rw [hsnd, markUsed, List.forall₂_map_right_iff, List.forall₂_same]
      intro x _ hx
      by_cases hc : consumePred now identity value x = true
      · rw [if_pos hc]
      · rw [if_neg hc]
        exact hx
    | none =>
      have hsnd : (consume now identity value s).2 = s := by
        simp only [consume, hfind]
        split
        · rfl
        · split
          · rfl
          · rfl
      rw [hsnd, List.forall₂_same]
      exact fun x _ hx => hx

/-- C4 witness: the concrete replay of a consumed nonce fails with
`alreadyUsed` on the unchanged store. -/
theorem replay_rejected_and_used_monotone_witness :
    consume 20 "0xaa" "n1" [⟨"0xaa", "n1", 0, 300, true⟩] =
      (Except.error ConsumeError.alreadyUsed, [⟨"0xaa", "n1", 0, 300, true⟩]) :=
  replay_rejected_and_used_monotone.1 [⟨"0xaa", "n1", 0, 300, false⟩]
    [⟨"0xaa", "n1", 0, 300, true⟩] "0xaa" "n1" 10 20 ⟨"0xaa", "n1", 0, 300, true⟩
    (by intro i v; exact List.countP_le_length _) (by rfl)

/-- C5: a nonce is issued with `expires_at` five minutes after issue time,
and consuming it one second after expiry fails with the `expired` error
whatever signature accompanied the attempt (`consume` never inspects a
signature), leaving the store unchanged. -/
theorem nonce_expires_after_five_minutes :
    ∀ (s : Store) (identity value : String) (t0 : Nat),
      (∀ r ∈ s, rowMatches identity value r = false) →
      (issueRow t0 identity value).expiresAt = t0 + 5 * 60 ∧
      consume (t0 + 5 * 60 + 1) identity value (issue t0 identity value s) =
        (Except.error ConsumeError.expired, issue t0 identity value s) := by
  intro s identity value t0 hno
  refine ⟨rfl, ?_⟩
  have hfind : (issue t0 identity value s).find?
      (consumePred (t0 + 5 * 60 + 1) identity value) = none := by
    rw [List.find?_eq_none]
    intro r hr
    rcases List.mem_cons.mp hr with rfl | hrs
    · intro hc
      simp [consumePred, rowActive, issueRow, rowMatches, nonceWindow] at hc
    · intro hc
      simp [consumePred, hno r hrs] at hc
  have hmem : issueRow t0 identity value ∈ issue t0 identity value s :=
    List.mem_cons_self _ _
  have hmatch : rowMatches identity value (issueRow t0 identity value) = true := by
    simp [rowMatches, issueRow]
  have hall : (issue t0 identity value s).all
      (fun r => !rowMatches identity value r) = false := by
    rw [List.all_eq_false]
    exact ⟨_, hmem, by simp [hmatch]⟩
  have hany : (issue t0 identity value s).any
      (fun r => rowMatches identity value r && r.used) = false := by
    rw [List.any_eq_false]
    intro r hr
    rcases List.mem_cons.mp hr with rfl | hrs
    · simp [issueRow]
    · simp [hno r hrs]
  simp [consume, hfind, hall, hany]

/-- C5 witness at a concrete issue time on the empty store. -/
theorem nonce_expires_after_five_minutes_witness :
    (issueRow 1000 "0xaa" "n1").expiresAt = 1000 + 5 * 60 ∧
    consume (1000 + 5 * 60 + 1) "0xaa" "n1" (issue 1000 "0xaa" "n1" []) =
      (Except.error ConsumeError.expired, issue 1000 "0xaa" "n1" []) :=
  nonce_expires_after_five_minutes [] "0xaa" "n1" 1000 (by simp)

/-- A predicate and its negation count every element exactly once. -/
theorem countP_not_add {α : Type} (p : α → Bool) (l : List α) :
    l.countP p + l.countP (fun a => !p a) = l.length := by
  induction l with
  | nil => rfl
  | cons a t ih =>
    rw [List.countP_cons, List.countP_cons, List.length_cons]
    cases hp : p a <;> simp [hp] <;> omega

/-- C7: the sweep deletes exactly the rows that are expired or used,
returns the number of deleted rows, and running it again right away with
the same clock deletes zero rows and leaves the store unchanged. -/
theorem sweep_deletes_exactly_and_idempotent :
    ∀ (now : Nat) (s : Store),
      (∀ r : NonceRow, r ∈ (sweepExpired now s).2 ↔
        r ∈ s ∧ ¬ (r.expiresAt < now ∨ r.used = true)) ∧
      (sweepExpired now s).1 = s.countP (sweepCond now) ∧
      sweepExpired now (sweepExpired now s).2 = (0, (sweepExpired now s).2) := by
  intro now s
  have hsnd : (sweepExpired now s).2 = s.filter (fun r => !sweepCond now r) := rfl
  refine ⟨?_, ?_, ?_⟩
  · intro r
    rw [hsnd, List.mem_filter]
    simp [sweepCond]
  · have h1 : (s.filter (fun r => !sweepCond now r)).length =
        s.countP (fun r => !sweepCond now r) :=
      (List.countP_eq_length_filter _ _).symm
    have h2 := countP_not_add (sweepCond now) s
    have h0 : (sweepExpired now s).1 =
        s.length - (s.filter (fun r => !sweepCond now r)).length := rfl
    rw [h0, h1]
    omega
  · have hfil : ((sweepExpired now s).2).filter (fun r => !sweepCond now r) =
        (sweepExpired now s).2 := by
      rw [List.filter_eq_self]
      intro a ha
      rw [hsnd] at ha
      exact (List.mem_filter.mp ha).2
    show ((sweepExpired now s).2.length -
        ((sweepExpired now s).2.filter (fun r => !sweepCond now r)).length,
        (sweepExpired now s).2.filter (fun r => !sweepCond now r)) = _
    rw [hfil, Nat.sub_self]

/-! ### C8: typed failure results of the client flow -/

/-- C8 counterexample: with no connected wallet, `authenticate` returns a
failure result whose error kind and category fields are both absent, so
not every failure path returns a result carrying a discriminated error
kind (on this path the typed error object goes to the error state of the
hook rather than into the returned result). -/
theorem authenticate_untyped_failure_counterexample :
    (authenticate envNotConnected).success = false ∧
    (authenticate envNotConnected).error = none ∧
    (authenticate envNotConnected).category = none :=
  ⟨rfl, rfl, rfl⟩

/-- C8 (amended): the embedding of `authenticate` is a total function, so
no exception crosses the boundary, and with a connected wallet every run
returns either a success result or a failure result carrying a
discriminated error code together with a category; only the not-connected
precheck path returns a bare failure without an error kind in the result. -/
theorem authenticate_typed_results :
    ∀ env : AuthEnv,
      (env.connected = true →
        (authenticate env).success = true ∨
        ((authenticate env).error.isSome = true ∧
         (authenticate env).category.isSome = true)) ∧
      (env.connected = false →
        authenticate env =
          { success := false, error := none, category := none, token := none }) := by
  intro env
  constructor
  · intro hc
    cases h : authTry env with
    | ok t =>
      left
      simp [authenticate, hc, h]
    | error e =>
      right
      constructor <;> simp [authenticate, hc, h]
  · intro hc
    simp [authenticate, hc]

/-- C8 witness at the two concrete environments. -/
theorem authenticate_typed_results_witness :
    ((authenticate envUserRejected).success = true ∨
      ((authenticate envUserRejected).error.isSome = true ∧
       (authenticate envUserRejected).category.isSome = true)) ∧
    authenticate envNotConnected =
      { success := false, error := none, category := none, token := none } :=
  ⟨(authenticate_typed_results envUserRejected).1 rfl,
   (authenticate_typed_results envNotConnected).2 rfl⟩

/-! ### Wallet string lemmas for C9 and C10 -/

/-- The digest byte list always has exactly 32 entries. -/
theorem digestBytes_length (hs : Hash8) : (digestBytes hs).length = 32 := by
  simp [digestBytes, wordBE]

/-- SHA-256 digests have 32 bytes for every input. -/
theorem sha256_length (msg : List Nat) : (sha256 msg).length = 32 :=
  digestBytes_length _

/-- Hex encoding two characters per byte. -/
theorem concat_byteHex_length (bs : List Nat) :
    (concatAll (bs.map byteHex)).length = 2 * bs.length := by
  induction bs with
  | nil => rfl
  | cons b t ih =>
    simp only [List.map_cons, concatAll, List.length_append, byteHex,
      List.length_cons, List.length_nil, List.length_cons]
    rw [ih]
    omega

/-- Hex digits are never whitespace. -/
theorem hexChar_mod16_not_ws (n : Nat) : jsWhitespace (hexChar (n % 16)) = false := by
  have h : n % 16 < 16 := Nat.mod_lt _ (by norm_num)
  have hall : ∀ m, m < 16 → jsWhitespace (hexChar m) = false := by decide
  exact hall _ h

/-- No character of a hex encoding is whitespace. -/
theorem mem_concat_byteHex_not_ws (bs : List Nat) :
    ∀ c ∈ concatAll (bs.map byteHex), jsWhitespace c = false := by
  induction bs with
  | nil => intro c hc; simp [concatAll] at hc
  | cons b t ih =>
    intro c hc
    simp only [List.map_cons, concatAll] at hc
    rcases List.mem_append.mp hc with h | h
    · simp only [byteHex, List.mem_cons, List.not_mem_nil, or_false] at h
      rcases h with rfl | rfl
      · exact hexChar_mod16_not_ws _
      · exact hexChar_mod16_not_ws _
    · exact ih c h

/-- Dropping while a predicate that is false everywhere drops nothing. -/
theorem dropWhile_eq_self_of_false {p : Char → Bool} {l : List Char}
    (h : ∀ c ∈ l, p c = false) : l.dropWhile p = l := by
  cases l with
  | nil => rfl
  | cons a t => simp [List.dropWhile_cons, h a (List.mem_cons_self a t)]

/-- Trimming a string without whitespace characters is the identity. -/
theorem jsTrim_eq_self {s : String} (h : ∀ c ∈ s.data, jsWhitespace c = false) :
    jsTrim s = s := by
  unfold jsTrim
  rw [dropWhile_eq_self_of_false h,
    dropWhile_eq_self_of_false (fun c hc => h c (List.mem_reverse.mp hc)),
    List.reverse_reverse]

/-- The character data of a `0x`-prefixed hex encoding. -/
theorem hexPrefixed_data (bs : List Nat) :
    ("0x" ++ hexOfBytes bs).data = '0' :: 'x' :: concatAll (bs.map byteHex) := by
  rw [String.data_append]
  rfl

/-- The length of a `0x`-prefixed hex encoding. -/
theorem hexPrefixed_length (bs : List Nat) :
    jsLength ("0x" ++ hexOfBytes bs) = 2 + 2 * bs.length := by
  rw [jsLength, hexPrefixed_data]
  simp only [List.length_cons]
  rw [concat_byteHex_length]
  omega

/-- A `0x`-prefixed hex encoding starts with `0x`. -/
theorem hexPrefixed_starts (bs : List Nat) :
    jsStartsWith ("0x" ++ hexOfBytes bs) "0x" = true := by
  rw [jsStartsWith, hexPrefixed_data]
  simp [List.take]

/-- No character of a `0x`-prefixed hex encoding is whitespace. -/
theorem hexPrefixed_not_ws (bs : List Nat) :
    ∀ c ∈ ("0x" ++ hexOfBytes bs).data, jsWhitespace c = false := by
  rw [hexPrefixed_data]
  intro c hc
  rcases List.mem_cons.mp hc with rfl | hc2
  · rfl
  rcases List.mem_cons.mp hc2 with rfl | hc3
  · rfl
  · exact mem_concat_byteHex_not_ws bs c hc3

/-- The 20 address bytes sliced out of a digest always number exactly 20. -/
theorem addressBytes_length (key : String) :
    (((sha256 (utf8Bytes key)).drop 12).take 20).length = 20 := by
  rw [List.length_take, List.length_drop, sha256_length]
  rfl

/-- C1: the claim holds for the scheme the repository documents, but the
extension signing code breaks it.  `approveSignature` emits a bare 32-byte
SHA-256 digest as the signature, a 66-character string for every wallet
and message, never the 132-character well-formed (r, s, v) signature the
documented recovery-based scheme requires, so spec-level verification
rejects it as malformed even when it was produced with the matching
private material.  The final conjuncts evaluate the shape at the concrete
failing input: the all-zero-key wallet signing the message `login`. -/
theorem approveSignature_unrecoverable_digest :
    (∀ (w : Wallet) (msg : String),
      jsLength (approveSignature w msg) = 66 ∧
      schemeSigWellFormed (approveSignature w msg) = false) ∧
    jsLength (approveSignature (generateWallet (List.replicate 32 0)) "login") = 66 ∧
    schemeSigWellFormed
      (approveSignature (generateWallet (List.replicate 32 0)) "login") = false := by
  have huniv : ∀ (w : Wallet) (msg : String),
      jsLength (approveSignature w msg) = 66 ∧
      schemeSigWellFormed (approveSignature w msg) = false := by
    intro w msg
    have hlen : jsLength (approveSignature w msg) = 66 := by
      show jsLength
        ("0x" ++ hexOfBytes (sha256 (utf8Bytes (eip191Header msg ++ w.privateKey)))) = 66
      rw [hexPrefixed_length, sha256_length]
    refine ⟨hlen, ?_⟩
    simp [schemeSigWellFormed, hlen]
  exact ⟨huniv, (huniv _ _).1, (huniv _ _).2⟩

/-! ### C9 and C10 -/

/-- C9: wallet creation and wallet import derive the address from the
private key by the same function, the derived address is always a
42-character `0x`-prefixed string, and re-importing the private key
exported from a created wallet persists exactly the created wallet,
address included. -/
theorem create_import_same_address :
    (∀ key : String, deriveAddressImport key = deriveAddressCreate key) ∧
    (∀ key : String, jsLength (deriveAddressCreate key) = 42 ∧
      jsStartsWith (deriveAddressCreate key) "0x" = true) ∧
    (∀ arr : List Nat, arr.length = 32 →
      importWallet (generateWallet arr).privateKey none =
        (some (generateWallet arr), true)) := by
  refine ⟨fun _ => rfl, fun key => ⟨?_, ?_⟩, ?_⟩
  · show jsLength ("0x" ++ hexOfBytes (((sha256 (utf8Bytes key)).drop 12).take 20)) = 42
    rw [hexPrefixed_length, addressBytes_length]
  · exact hexPrefixed_starts _
  · intro arr harr
    have htrim : jsTrim ("0x" ++ hexOfBytes arr) = "0x" ++ hexOfBytes arr :=
      jsTrim_eq_self (hexPrefixed_not_ws arr)
    have hlen : jsLength ("0x" ++ hexOfBytes arr) = 66 := by
      rw [hexPrefixed_length, harr]
    have hsw : jsStartsWith ("0x" ++ hexOfBytes arr) "0x" = true :=
      hexPrefixed_starts arr
    have hne : ("0x" ++ hexOfBytes arr) ≠ "" := by
      intro h
      have hd := hexPrefixed_data arr
      rw [h] at hd
      simp at hd
    show importWallet ("0x" ++ hexOfBytes arr) none = _
    simp only [importWallet]
    rw [htrim, if_neg]
    · rfl
    · push_neg
      exact ⟨hne, hsw, hlen⟩

/-- C9 witness on a concrete 32-byte array. -/
theorem create_import_same_address_witness :
    (List.replicate 32 0).length = 32 ∧
    importWallet (generateWallet (List.replicate 32 0)).privateKey none =
      (some (generateWallet (List.replicate 32 0)), true) :=
  ⟨by simp, create_import_same_address.2.2 (List.replicate 32 0) (by simp)⟩

/-- C10 counterexample: a valid key entered with one trailing space has 67
characters, so by the claim as stated it must be rejected, yet the code
trims the input first and persists the wallet. -/
theorem importWallet_counterexample :
    (importWallet paddedKey none).2 = true ∧ jsLength paddedKey ≠ 66 := by
  constructor
  · rfl
  · decide

/-- C10 (amended): `importWallet` persists a wallet if and only if the
trimmed entered key string starts with `0x` and has length exactly 66
(JavaScript rejects the empty trimmed string first); the 64 remaining
characters are not checked to be hexadecimal, witnessed by the accepted
all-`z` key; and whenever the input is rejected the previously stored
wallet is returned unchanged. -/
theorem importWallet_validation :
    ∀ (input : String) (stored : Option Wallet),
      ((importWallet input stored).2 = true ↔
        (jsTrim input ≠ "" ∧ jsStartsWith (jsTrim input) "0x" = true ∧
         jsLength (jsTrim input) = 66)) ∧
      ((importWallet input stored).2 = false →
        (importWallet input stored).1 = stored) ∧
      (importWallet nonHexKey none).2 = true := by
  intro input stored
  refine ⟨?_, ?_, ?_⟩
  · simp only [importWallet]
    by_cases hcond : (jsTrim input = "" ∨ ¬ jsStartsWith (jsTrim input) "0x" ∨
        jsLength (jsTrim input) ≠ 66)
    · rw [if_pos hcond]
      refine iff_of_false (by simp) (fun hcon => ?_)
      rcases hcond with h | h | h
      · exact hcon.1 h
      · exact h hcon.2.1
      · exact h hcon.2.2
    · rw [if_neg hcond]
      push_neg at hcond
      exact iff_of_true rfl ⟨hcond.1, hcond.2.1, hcond.2.2⟩
  · simp only [importWallet]
    by_cases hcond : (jsTrim input = "" ∨ ¬ jsStartsWith (jsTrim input) "0x" ∨
        jsLength (jsTrim input) ≠ 66)
    · rw [if_pos hcond]
      intro _
      rfl
    · rw [if_neg hcond]
      intro h
      exact absurd h (by simp)
  · rfl

/-- C10 witness: a trimmed valid key is persisted, and a rejected input
leaves the empty storage unchanged. -/
theorem importWallet_validation_witness :
    (importWallet ("0x" ++ ⟨List.replicate 64 'a'⟩) none).2 = true ∧
    (importWallet "bad" none).1 = none :=
  ⟨(importWallet_validation ("0x" ++ ⟨List.replicate 64 'a'⟩) none).1.mpr
      ⟨by decide, by decide, by decide⟩,
   (importWallet_validation "bad" none).2.1 (by decide)⟩

end Research
